import Mathlib

/-!
Shallow embedding of src/builder.go (package main of gobuild): the
watch, debounce, build, restart loop of a live-reload development tool.

Go strings are byte strings. Every string the source inspects byte by
byte does so for the ASCII bytes dot, star, slash, backslash, colon and
the ASCII suffix ".exe"; for valid UTF-8 input a byte-level match on
those coincides with the character-level match used below (a UTF-8
continuation byte is never an ASCII byte, so an ASCII byte match always
falls on a character boundary).
-/

namespace GoBuild

/-- Go strings.HasSuffix, used at builder.go line 93 and line 41:
suffix test on byte strings, here on the character lists. -/
def hasSuffix (s suf : String) : Bool :=
  suf.data.isSuffixOf s.data

/-- Models strings.IndexByte(s, c) >= 0 for an ASCII byte c
(builder.go line 44). -/
def containsChar (s : String) (c : Char) : Bool :=
  s.data.contains c

/-- filepath.Separator: a backslash on windows, a slash elsewhere. -/
def sepChar (goos : String) : Char :=
  if goos == "windows" then '\\' else '/'

/-- os.IsPathSeparator: on windows both the slash and the backslash
separate, elsewhere only the slash. -/
def isPathSep (goos : String) (c : Char) : Bool :=
  if goos == "windows" then c == '\\' || c == '/' else c == '/'

/-- Length of the leading volume name of a path, as in Go path/filepath:
zero on every system but windows; on windows the drive-letter form
(letter colon) has length two. The UNC volume form is omitted here; no
theorem below evaluates a windows path with a UNC volume. -/
def volumeNameLen (goos : String) (l : List Char) : Nat :=
  if goos == "windows" then
    match l with
    | a :: b :: _ =>
        if b = ':' ∧ (('a' ≤ a ∧ a ≤ 'z') ∨ ('A' ≤ a ∧ a ≤ 'Z')) then 2 else 0
    | _ => 0
  else 0

/-- Go path/filepath Base, called at builder.go line 39: empty path
gives a dot; otherwise strip trailing separators, drop the volume name,
and keep everything after the last separator; if nothing remains, the
separator itself is returned. -/
def filepathBase (goos : String) (path : String) : String :=
  if path = "" then "."
  else
    let stripped := (path.data.reverse.dropWhile (fun c => isPathSep goos c)).reverse
    let trimmed := stripped.drop (volumeNameLen goos stripped)
    let lastPart := (trimmed.reverse.takeWhile (fun c => !isPathSep goos c)).reverse
    if lastPart = [] then (sepChar goos).toString else String.mk lastPart

/-- Extension normalization, builder.go lines 59 to 69: empty strings
are dropped; an extension whose first byte is not a dot gains a leading
dot; order of the survivors is kept. Go reads the first byte, ext[0];
for a nonempty valid UTF-8 string that byte is 0x2e exactly when the
first character is the dot, modelled by the head of the character
list. -/
def normalizeExts : List String → List String
  | [] => []
  | ext :: rest =>
      if ext.length = 0 then normalizeExts rest
      else (if ext.data.head? ≠ some '.' then "." ++ ext else ext) :: normalizeExts rest

/-- The builder record, builder.go lines 18 to 22. The appCmd field is
modelled by the path it would run: exec.Command always yields a command
whose Path is the name given, since the resolved output name always
carries a separator, and the command is never nil. The mutable process
state of appCmd lives in SupState below. -/
structure Builder where
  exts : List String
  appCmdPath : String
  goCmdArgs : List String
  deriving DecidableEq

/-- newBuilder, builder.go lines 30 to 78: resolution of the output
name (lines 37 to 46), the go build argument list (lines 53 to 57) and
extension normalization (lines 59 to 69). wd stands for the result of
os.Getwd (line 31), goos for runtime.GOOS. The watcher registration of
line 76 is modelled separately by watchStep. -/
def newBuilder (goos wd mainFiles outputName : String) (exts : List String) : Builder :=
  let name1 := if outputName.length = 0 then filepathBase goos wd else outputName
  let name2 := if goos == "windows" && !hasSuffix name1 ".exe" then name1 ++ ".exe" else name1
  let name3 := if !containsChar name2 '/' || !containsChar name2 (sepChar goos)
               then wd ++ (sepChar goos).toString ++ name2 else name2
  { exts := normalizeExts exts
    appCmdPath := name3
    goCmdArgs := ["build", "-o", name3] ++ (if mainFiles.length > 0 then [mainFiles] else []) }

/-- The scan over b.exts inside isIgnore, builder.go lines 86 to 96:
empty entries are skipped, a star entry or a suffix match returns
false, a completed scan returns true (line 98). -/
def isIgnoreExts : List String → String → Bool
  | [], _ => true
  | ext :: rest, path =>
      if ext.length = 0 then isIgnoreExts rest path
      else if ext = "*" then false
      else if hasSuffix path ext then false
      else isIgnoreExts rest path

/-- isIgnore, builder.go lines 81 to 99: the path of the program itself
is always ignored (line 82; the nil test there is constant true after
newBuilder), every other path is judged by the extension scan. -/
def Builder.isIgnore (b : Builder) (path : String) : Bool :=
  if b.appCmdPath = path then true else isIgnoreExts b.exts path

/-- fsnotify operation bitmask values. -/
def fsnotifyCreate : Nat := 1

def fsnotifyWrite : Nat := 2

def fsnotifyRemove : Nat := 4

def fsnotifyRename : Nat := 8

def fsnotifyChmod : Nat := 16

/-- One fsnotify event: a path and an operation bitmask. -/
structure Event where
  name : String
  op : Nat
  deriving DecidableEq

/-- Which branch of the event handler, builder.go lines 163 to 182,
handled the event. A build goroutine (go b.build, line 182) is
dispatched exactly on triggered. -/
inductive StepOutcome
  | chmodIgnored
  | extIgnored
  | debounceIgnored
  | triggered
  deriving DecidableEq

/-- var buildTime int64, builder.go line 160: the zero value the loop
starts with. -/
def initialBuildTime : Int := 0

/-- One iteration of the event branch of the watch loop, builder.go
lines 163 to 182. buildTime is the timestamp state; now is the value of
time.Now().Unix() during the iteration (the source reads the clock on
line 174 and again on line 179; both reads are modelled by one value).
The returned Int is the new buildTime; the outcome reports which branch
ran, in source order: the chmod-bit test (line 164) precedes the
isIgnore test (line 169), which precedes the debounce test (line
174). -/
def watchStep (b : Builder) (buildTime : Int) (e : Event) (now : Int) : Int × StepOutcome :=
  if e.op &&& fsnotifyChmod = fsnotifyChmod then (buildTime, StepOutcome.chmodIgnored)
  else if b.isIgnore e.name then (buildTime, StepOutcome.extIgnored)
  else if now - buildTime ≤ 1 then (buildTime, StepOutcome.debounceIgnored)
  else (now, StepOutcome.triggered)

/-- The mutable state of b.appCmd: whether Run has ever started it,
that is whether appCmd.Process is non-nil. os/exec never resets the
Process field of a command to nil, not even after the process exits. -/
structure SupState where
  processStarted : Bool
  deriving DecidableEq

/-- The observable actions of one restart call, builder.go lines 119
to 137. -/
structure RestartTrace where
  killAttempted : Bool
  killErrLogged : Bool
  runCalled : Bool
  launchedPath : Option String
  alreadyStartedErr : Bool
  deriving DecidableEq

/-- restart, builder.go lines 119 to 137: if appCmd.Process is non-nil
the old process is killed (lines 127 to 132; killErr is the result of
Process.Kill, only logged); then appCmd.Run is called (line 134). Per
os/exec, Run on a command whose Process is already non-nil returns the
already-started error without creating any process; otherwise it starts
a new process at appCmd.Path and waits for it. -/
def restart (b : Builder) (st : SupState) (killErr : Bool) : SupState × RestartTrace :=
  if st.processStarted then
    (st, { killAttempted := true
           killErrLogged := killErr
           runCalled := true
           launchedPath := none
           alreadyStartedErr := true })
  else
    ({ processStarted := true },
     { killAttempted := false
       killErrLogged := false
       runCalled := true
       launchedPath := some b.appCmdPath
       alreadyStartedErr := false })

/-- The observable actions of one build call, builder.go lines 102
to 116. -/
structure BuildTrace where
  restartCalls : Nat
  restartTr : Option RestartTrace
  deriving DecidableEq

/-- build, builder.go lines 102 to 116. buildOk is whether goCmd.Run
succeeded; the go build command is created fresh on every call (line
105), so it has no reuse concern. On failure the function logs and
returns (lines 108 to 111); on success it calls restart exactly once
(line 115). -/
def build (b : Builder) (st : SupState) (buildOk killErr : Bool) : SupState × BuildTrace :=
  if buildOk then
    ((restart b st killErr).1,
     { restartCalls := 1, restartTr := some (restart b st killErr).2 })
  else
    (st, { restartCalls := 0, restartTr := none })

/-! Theorems. -/

/-- C5: after every successful build invocation exactly one restart
attempt follows; the restart attempts the kill exactly when a prior
instance was started, and the Run call (the launch attempt) is made for
every value of the kill result, so a kill failure never prevents it. -/
theorem build_success_one_restart (b : Builder) (st : SupState) (killErr : Bool) :
    (build b st true killErr).2.restartCalls = 1
  ∧ (build b st true killErr).2.restartTr = some (restart b st killErr).2
  ∧ (restart b st killErr).2.killAttempted = st.processStarted
  ∧ (restart b st killErr).2.runCalled = true := by
  obtain ⟨p⟩ := st
  cases p <;> exact ⟨rfl, rfl, rfl, rfl⟩

/-- C6: a failed build invocation performs no restart: the supervisor
state is unchanged, the restart count is zero and no restart trace
exists, so the previously running instance is neither killed nor
replaced. -/
theorem build_failure_no_restart (b : Builder) (st : SupState) (killErr : Bool) :
    build b st false killErr = (st, { restartCalls := 0, restartTr := none }) := rfl

/-- C8: an event whose operation kind is exactly the chmod
(permission or metadata only) bit is handled by the very first branch
of the watch loop: the outcome is chmodIgnored, reached before the
isIgnore filter and the debounce test, no build is triggered, and the
last-trigger timestamp is returned unchanged. -/
theorem chmod_event_ignored (b : Builder) (buildTime now : Int) (name : String) :
    watchStep b buildTime { name := name, op := fsnotifyChmod } now
      = (buildTime, StepOutcome.chmodIgnored) := by
  simp [watchStep, fsnotifyChmod]

/-- C1: the claim fails on the code. The single exec.Cmd built in
newBuilder is reused by every restart: the first restart launches a new
instance at the resolved output path, but the second restart, after its
kill attempt, calls Run on the already-started command, which returns
the already-started error and launches nothing. Evaluated here on the
builder for goos linux, wd /work, output name app. -/
theorem restart_only_first_launches :
    (restart (newBuilder "linux" "/work" "" "app" ["go"]) ⟨false⟩ false).2.launchedPath
      = some "/work/app"
  ∧ (restart (newBuilder "linux" "/work" "" "app" ["go"])
      (restart (newBuilder "linux" "/work" "" "app" ["go"]) ⟨false⟩ false).1
        false).2.killAttempted = true
  ∧ (restart (newBuilder "linux" "/work" "" "app" ["go"])
      (restart (newBuilder "linux" "/work" "" "app" ["go"]) ⟨false⟩ false).1
        false).2.alreadyStartedErr = true
  ∧ (restart (newBuilder "linux" "/work" "" "app" ["go"])
      (restart (newBuilder "linux" "/work" "" "app" ["go"]) ⟨false⟩ false).1
        false).2.launchedPath = none := by
  decide

/-- C2: the claim fails on the code. newBuilder normalizes the wildcard
entry star to dot-star, so the wildcard branch of isIgnore never sees a
bare star: with initialization extensions consisting of the star alone,
the non-output path main.go is ignored, not accepted. -/
theorem wildcard_lost_in_normalization :
    (newBuilder "linux" "/work" "" "app" ["*"]).exts = [".*"]
  ∧ (newBuilder "linux" "/work" "" "app" ["*"]).appCmdPath = "/work/app"
  ∧ (newBuilder "linux" "/work" "" "app" ["*"]).isIgnore "main.go" = true := by
  decide

/-- C7: the claim fails on the code for the windows separator. The
guard on builder.go line 44 joins the two IndexByte tests with an or,
so an output name that contains the windows separator backslash but no
slash is still joined onto the working directory, although a path
separator was given in it. -/
theorem windows_output_join_despite_separator :
    containsChar "sub\\app.exe" (sepChar "windows") = true
  ∧ (newBuilder "windows" "C:\\work" "" "sub\\app.exe" []).appCmdPath
      = "C:\\work\\sub\\app.exe" := by
  decide

/-- A watch-loop step that reports triggered records the clock value it
was given as the new last-trigger timestamp. -/
theorem watchStep_triggered (b : Builder) (buildTime : Int) (e : Event) (now : Int)
    (h : (watchStep b buildTime e now).2 = StepOutcome.triggered) :
    watchStep b buildTime e now = (now, StepOutcome.triggered) := by
  unfold watchStep at h ⊢
  by_cases h1 : e.op &&& fsnotifyChmod = fsnotifyChmod
  · rw [if_pos h1] at h
    simp at h
  · rw [if_neg h1] at h ⊢
    by_cases h2 : b.isIgnore e.name = true
    · rw [if_pos h2] at h
      simp at h
    · rw [if_neg h2] at h ⊢
      by_cases h3 : now - buildTime ≤ 1
      · rw [if_pos h3] at h
        simp at h
      · rw [if_neg h3] at h ⊢

/-- C3: debounce of two qualifying events. If the event at time t is
accepted, the last-trigger timestamp becomes t, and a second event that
passes the chmod and isIgnore checks at time t plus d is accepted
exactly when d exceeds one time unit. -/
theorem debounce_two_events (b : Builder) (buildTime : Int) (e1 e2 : Event) (t d : Int)
    (h1 : (watchStep b buildTime e1 t).2 = StepOutcome.triggered)
    (h2 : ¬ e2.op &&& fsnotifyChmod = fsnotifyChmod)
    (h3 : b.isIgnore e2.name = false) :
    (watchStep b buildTime e1 t).1 = t
  ∧ ((watchStep b (watchStep b buildTime e1 t).1 e2 (t + d)).2 = StepOutcome.triggered
      ↔ 1 < d) := by
  have hs := watchStep_triggered b buildTime e1 t h1
  rw [hs]
  refine ⟨rfl, ?_⟩
  show (watchStep b t e2 (t + d)).2 = StepOutcome.triggered ↔ 1 < d
  unfold watchStep
  rw [if_neg h2, if_neg (by simp [h3])]
  by_cases h4 : t + d - t ≤ 1
  · rw [if_pos h4]
    constructor
    · intro hc
      simp at hc
    · intro hd
      exact absurd h4 (by omega)
  · rw [if_neg h4]
    constructor
    · intro _
      omega
    · intro _
      rfl

/-- Witness for C3 at a concrete input: builder watching the go
extension, a write event on m.go accepted at time 100, a second write
two units later is accepted as well. -/
theorem debounce_two_events_witness :
    (watchStep (Builder.mk [".go"] "/w/app" ["build", "-o", "/w/app"]) 0 ⟨"m.go", 2⟩ 100).1
      = 100
  ∧ ((watchStep (Builder.mk [".go"] "/w/app" ["build", "-o", "/w/app"])
        (watchStep (Builder.mk [".go"] "/w/app" ["build", "-o", "/w/app"]) 0
          ⟨"m.go", 2⟩ 100).1
        ⟨"m.go", 2⟩ (100 + 2)).2 = StepOutcome.triggered
      ↔ 1 < (2 : Int)) :=
  debounce_two_events (Builder.mk [".go"] "/w/app" ["build", "-o", "/w/app"]) 0
    ⟨"m.go", 2⟩ ⟨"m.go", 2⟩ 100 2 (by decide) (by decide) (by decide)

/-- C10: the very first qualifying event after startup is never
suppressed by the debounce test when the clock exceeds one, because the
timestamp state starts at its zero value. -/
theorem first_event_not_debounced (b : Builder) (e : Event) (now : Int)
    (h1 : ¬ e.op &&& fsnotifyChmod = fsnotifyChmod)
    (h2 : b.isIgnore e.name = false)
    (h3 : 1 < now) :
    watchStep b initialBuildTime e now = (now, StepOutcome.triggered) := by
  unfold watchStep
  rw [if_neg h1, if_neg (by simp [h2]),
    if_neg (show ¬ now - initialBuildTime ≤ 1 by unfold initialBuildTime; omega)]

/-- Witness for C10 at a concrete input: a write event on m.go at time
100 from the initial state triggers a build. -/
theorem first_event_not_debounced_witness :
    watchStep (Builder.mk [".go"] "/w/app" ["build", "-o", "/w/app"]) initialBuildTime
        ⟨"m.go", 2⟩ 100 = (100, StepOutcome.triggered) :=
  first_event_not_debounced (Builder.mk [".go"] "/w/app" ["build", "-o", "/w/app"])
    ⟨"m.go", 2⟩ 100 (by decide) (by decide) (by decide)

/-- If some nonempty entry of the list is the star or a suffix of the
path, the extension scan returns false. -/
theorem isIgnoreExts_false_of_match (path : String) :
    ∀ exts : List String,
      (∃ ext, ext ∈ exts ∧ ¬ ext.length = 0 ∧ (ext = "*" ∨ hasSuffix path ext = true)) →
      isIgnoreExts exts path = false := by
  intro exts
  induction exts with
  | nil =>
      rintro ⟨e, he, _⟩
      cases he
  | cons e rest ih =>
      rintro ⟨x, hx, hlen, hm⟩
      unfold isIgnoreExts
      by_cases h0 : e.length = 0
      · rw [if_pos h0]
        apply ih
        refine ⟨x, ?_, hlen, hm⟩
        cases hx with
        | head => exact absurd h0 hlen
        | tail _ ht => exact ht
      · rw [if_neg h0]
        by_cases hstar : e = "*"
        · rw [if_pos hstar]
        · rw [if_neg hstar]
          by_cases hsuf : hasSuffix path e = true
          · rw [if_pos hsuf]
          · rw [if_neg hsuf]
            apply ih
            cases hx with
            | head =>
                cases hm with
                | inl hw => exact absurd hw hstar
                | inr hs => exact absurd hs hsuf
            | tail _ ht => exact ⟨x, ht, hlen, hm⟩

/-- If the list holds no star and no nonempty entry is a suffix of the
path, the extension scan returns true. -/
theorem isIgnoreExts_true_of_no_match (path : String) :
    ∀ exts : List String, ¬ "*" ∈ exts →
      (∀ ext ∈ exts, ¬ ext.length = 0 → hasSuffix path ext = false) →
      isIgnoreExts exts path = true := by
  intro exts
  induction exts with
  | nil =>
      intro _ _
      rfl
  | cons e rest ih =>
      intro hw h
      unfold isIgnoreExts
      by_cases h0 : e.length = 0
      · rw [if_pos h0]
        exact ih (fun hm => hw (List.mem_cons_of_mem _ hm))
          (fun x hx hl => h x (List.mem_cons_of_mem _ hx) hl)
      · rw [if_neg h0]
        have hstar : ¬ e = "*" := fun he => hw (by rw [he]; exact List.mem_cons_self _ _)
        rw [if_neg hstar]
        have hsuf := h e (List.mem_cons_self _ _) h0
        rw [if_neg (by simp [hsuf])]
        exact ih (fun hm => hw (List.mem_cons_of_mem _ hm))
          (fun x hx hl => h x (List.mem_cons_of_mem _ hx) hl)

/-- C4: allow-list semantics of isIgnore. The resolved output path is
ignored regardless of extension; a non-output path ending in some
configured nonempty extension is not ignored; a non-output path
matching no configured extension is ignored when no wildcard entry is
present; in particular an empty extension list ignores every non-output
path. The nonemptiness guards mirror the skip on builder.go line 87;
newBuilder never produces an empty extension. -/
theorem isIgnore_allow_list_semantics (b : Builder) (path : String) :
    b.isIgnore b.appCmdPath = true
  ∧ (¬ path = b.appCmdPath →
      (∃ ext, ext ∈ b.exts ∧ ¬ ext.length = 0 ∧ hasSuffix path ext = true) →
      b.isIgnore path = false)
  ∧ (¬ path = b.appCmdPath → ¬ "*" ∈ b.exts →
      (∀ ext ∈ b.exts, ¬ ext.length = 0 → hasSuffix path ext = false) →
      b.isIgnore path = true)
  ∧ (b.exts = [] → ¬ path = b.appCmdPath → b.isIgnore path = true) := by
  refine ⟨?_, ?_, ?_, ?_⟩
  · unfold Builder.isIgnore
    rw [if_pos rfl]
  · intro hne hex
    unfold Builder.isIgnore
    rw [if_neg (fun hh => hne hh.symm)]
    obtain ⟨x, hx, hl, hs⟩ := hex
    exact isIgnoreExts_false_of_match path b.exts ⟨x, hx, hl, Or.inr hs⟩
  · intro hne hw hall
    unfold Builder.isIgnore
    rw [if_neg (fun hh => hne hh.symm)]
    exact isIgnoreExts_true_of_no_match path b.exts hw hall
  · intro hnil hne
    unfold Builder.isIgnore
    rw [if_neg (fun hh => hne hh.symm), hnil]
    rfl

/-- Witness for C4 at a concrete input: with the go extension
configured, the non-output path main.go is not ignored. -/
theorem isIgnore_allow_list_semantics_witness :
    (Builder.mk [".go"] "/w/app" ["build", "-o", "/w/app"]).isIgnore "main.go" = false :=
  (isIgnore_allow_list_semantics (Builder.mk [".go"] "/w/app" ["build", "-o", "/w/app"])
      "main.go").2.1 (by decide) ⟨".go", by decide, by decide, by decide⟩

/-- Appending a leading dot puts the dot at the head of the character
list. -/
theorem dot_append_data (e : String) : ("." ++ e).data = '.' :: e.data := by
  obtain ⟨d⟩ := e
  rfl

/-- C9: extension normalization drops exactly the empty strings,
rewrites each survivor in order by prepending a dot when its first
character is not a dot, and every entry of the result starts with a
dot. -/
theorem normalize_exts_shape (exts : List String) :
    normalizeExts exts
      = (exts.filter fun e => e.length != 0).map
          (fun e => if e.data.head? ≠ some '.' then "." ++ e else e)
  ∧ ((normalizeExts exts).all fun e => e.data.head? == some '.') = true := by
  induction exts with
  | nil => exact ⟨rfl, rfl⟩
  | cons e rest ih =>
      obtain ⟨ih1, ih2⟩ := ih
      by_cases h0 : e.length = 0
      · have hf : (e.length != 0) = false := by simp [h0]
        refine ⟨?_, ?_⟩
        · unfold normalizeExts
          rw [if_pos h0, List.filter_cons, hf]
          simpa using ih1
        · unfold normalizeExts
          rw [if_pos h0]
          exact ih2
      · have ht : (e.length != 0) = true := by simp [h0]
        refine ⟨?_, ?_⟩
        · unfold normalizeExts
          rw [if_neg h0, List.filter_cons, ht, if_pos rfl, List.map_cons, ih1]
        · unfold normalizeExts
          rw [if_neg h0, List.all_cons, ih2, Bool.and_true]
          by_cases hd : e.data.head? = some '.'
          · rw [if_neg (by simp [hd])]
            simp [hd]
          · rw [if_pos hd]
            simp [dot_append_data]

end GoBuild
